import Mathlib

/-!
# HTTP over gRPC: forwarder and receiver

A shallow embedding of `forward.go` and `receiver.go`.

* Byte slices are `List Byte`; a destination buffer `p` is represented by its
  length, and a `Read` returns the bytes it copied into `p`.
* A Go map (`http.Header`) is an association list whose order stands for the
  order in which `range` visits the entries; every statement quantifies over
  all such lists, hence over every iteration order.
* A gRPC stream is modelled by what its peer and transport will do (messages
  still to be delivered, the outcome of every `Send`) together with a trace
  of the calls made on it.
* The mutex `writeMtx` only serialises critical sections; the model runs the
  operations of one session sequentially.
-/

namespace HttpOverGrpc

/-! ## Wire messages and Go values -/

abbrev Byte := UInt8

/-- Non-nil Go `error` values, as far as the code tells them apart. -/
inductive GoError where
  | EOF
  | ErrClosedPipe
  | other (msg : String)
  deriving DecidableEq, Repr

/-- The message `pb.HTTPHeader`. -/
structure HTTPHeader where
  header : String
  values : List String
  deriving DecidableEq, Repr

/-- The message `pb.HTTPRequest`; an unset field has its zero value. -/
structure HTTPRequest where
  method : String := ""
  url : String := ""
  proto : String := ""
  remoteAddr : String := ""
  headers : List HTTPHeader := []
  bodyData : List Byte := []
  deriving DecidableEq, Repr

/-- The message `pb.HTTPResponse`; an unset field has its zero value. -/
structure HTTPResponse where
  statusCode : Int := 0
  headers : List HTTPHeader := []
  bodyData : List Byte := []
  deriving DecidableEq, Repr

/-- The conversion `int32(code)` of a Go `int`: wrap-around into 32 bits. -/
def toInt32 (n : Int) : Int := (n + 2147483648) % 4294967296 - 2147483648

/-! ## `http.Header` -/

/-- The Go type `http.Header` (`map[string][]string`) in iteration order. -/
abbrev Header := List (String × List String)

/-- The names (map keys) of a header collection. -/
def Header.keys (h : Header) : List String := h.map Prod.fst

/-- The map read `h[k]`. -/
def Header.lookup : Header → String → Option (List String)
  | [], _ => none
  | (k', vs) :: t, k => if k' = k then some vs else Header.lookup t k

/-- The map write `h[k] = vs`. -/
def Header.set : Header → String → List String → Header
  | [], k, vs => [(k, vs)]
  | (k', vs') :: t, k, vs =>
    if k' = k then (k, vs) :: t else (k', vs') :: Header.set t k vs

/-- The map delete `delete(h, k)`. -/
def Header.del (h : Header) (k : String) : Header := h.filter fun kv => kv.1 ≠ k

/-- Go's `validHeaderFieldByte` (net/textproto): the token characters of RFC 7230. -/
def validHeaderFieldByte (c : Char) : Bool :=
  c.isAlphanum ||
    [33, 35, 36, 37, 38, 39, 42, 43, 45, 46, 94, 95, 96, 124, 126].contains c.toNat

/-- The rewriting loop of Go's `canonicalMIMEHeaderKey`: upper case at the start
and after every dash, lower case elsewhere. -/
def canonicalLoop : Bool → List Char → List Char
  | _, [] => []
  | upper, c :: cs =>
    let c' :=
      if upper && c.isLower then c.toUpper
      else if !upper && c.isUpper then c.toLower
      else c
    c' :: canonicalLoop (c' == '-') cs

/-- Go's `http.CanonicalHeaderKey` (net/textproto `CanonicalMIMEHeaderKey`): a
name containing a space or another byte that is not a token character is
returned unchanged. -/
def CanonicalHeaderKey (s : String) : String :=
  if s.data.all validHeaderFieldByte then String.mk (canonicalLoop true s.data) else s

/-- Go's `Header.Get`: the first value stored under the canonical form of
`key`, or the empty string. -/
def Header.Get (h : Header) (key : String) : String :=
  match Header.lookup h (CanonicalHeaderKey key) with
  | some (v :: _) => v
  | _ => ""

/-- Go's `Header.Set`. -/
def Header.Set (h : Header) (key value : String) : Header :=
  Header.set h (CanonicalHeaderKey key) [value]

/-- Go's `Header.Del`. -/
def Header.Del (h : Header) (key : String) : Header :=
  Header.del h (CanonicalHeaderKey key)

/-- The loop `for h, vs := range hdr { append(&pb.HTTPHeader{Header: h, Values: vs}) }`
of `handler.ServeHTTP` and `responseWriter.WriteHeader`. -/
def encodeHeaders (h : Header) : List HTTPHeader :=
  h.map fun kv => { header := kv.1, values := kv.2 }

/-- The loop `for _, h := range msg.GetHeaders() { hdr[http.CanonicalHeaderKey(h.Header)] = h.Values }`
of `receiver.HTTP` and `handler.ServeHTTP`, started from the map `init`. -/
def mergeHeaders (init : Header) (hs : List HTTPHeader) : Header :=
  hs.foldl (fun acc x => Header.set acc (CanonicalHeaderKey x.header) x.values) init

/-- The request header map built by `receiver.HTTP` (the fresh request's map is empty). -/
def decodeHeaders (hs : List HTTPHeader) : Header := mergeHeaders [] hs

/-! ## Receiver side: the stream, the response writer and the body reader -/

/-- The three places of `receiver.go` that call `stream.Send`. -/
inductive SendSite where
  | metadata
  | body
  | expectContinue
  deriving DecidableEq, Repr

/-- A call made by the receiver on its stream or on the failure callback. -/
inductive Event where
  | send (site : SendSite) (m : HTTPResponse)
  | recv
  | failed
  deriving DecidableEq, Repr

/-- The server side of one stream (`pb.HTTPOverGRPCService_HTTPServer`) together
with the cancel function of the call: what the peer and the transport will do,
and the calls made so far, oldest first. -/
structure ServerStream where
  incoming : List HTTPRequest
  recvFinal : GoError
  sendErr : Nat → Option GoError
  sends : Nat
  trace : List Event

/-- The call `stream.Send(m)`: the outcome of the k-th call is `sendErr k`. -/
def ServerStream.Send (st : ServerStream) (site : SendSite) (m : HTTPResponse) :
    Option GoError × ServerStream :=
  (st.sendErr st.sends,
    { st with sends := st.sends + 1, trace := st.trace ++ [Event.send site m] })

/-- The call `stream.Recv()`: the next message of the peer, or the error that ends
the receive direction (`io.EOF` after the peer closed its send side). -/
def ServerStream.Recv (st : ServerStream) : Except GoError HTTPRequest × ServerStream :=
  match st.incoming with
  | [] => (Except.error st.recvFinal, { st with trace := st.trace ++ [Event.recv] })
  | m :: rest =>
    (Except.ok m, { st with incoming := rest, trace := st.trace ++ [Event.recv] })

/-- The messages handed to `stream.Send` so far, with the place that sent them. -/
def sentMessages : List Event → List (SendSite × HTTPResponse)
  | [] => []
  | Event.send site m :: t => (site, m) :: sentMessages t
  | _ :: t => sentMessages t

/-- The number of calls of the failure callback so far. -/
def failedCalls (t : List Event) : Nat := t.count Event.failed

/-- The struct `responseWriter`; `failed` is the cancel function, whose calls are
recorded in the trace of the stream. -/
structure responseWriter where
  header : Header
  sentHeader : Bool
  stream : ServerStream

/-- The call `rw.failed()`. -/
def responseWriter.failed (rw : responseWriter) : responseWriter :=
  { rw with stream := { rw.stream with trace := rw.stream.trace ++ [Event.failed] } }

/-- The method `responseWriter.WriteHeader`. -/
def responseWriter.WriteHeader (rw : responseWriter) (code : Int) : responseWriter :=
  if rw.sentHeader then rw
  else
    let msg : HTTPResponse :=
      { statusCode := toInt32 code, headers := encodeHeaders rw.header }
    let r := rw.stream.Send SendSite.metadata msg
    let rw1 : responseWriter := { rw with sentHeader := true, stream := r.2 }
    match r.1 with
    | some _ => rw1.failed
    | none => rw1

/-- The method `responseWriter.Write`, returning `(n, err)` and the new state. -/
def responseWriter.Write (rw : responseWriter) (p : List Byte) :
    (Nat × Option GoError) × responseWriter :=
  let rw1 := rw.WriteHeader 200
  let msg : HTTPResponse := { bodyData := p }
  let r := rw1.stream.Send SendSite.body msg
  let rw2 : responseWriter := { rw1 with stream := r.2 }
  match r.1 with
  | some e => ((0, some e), rw2.failed)
  | none => ((p.length, none), rw2)

/-- The struct `bodyReader` without its pointer `rw`, which `Session` supplies. -/
structure bodyReader where
  expectContinue : Bool
  buf : List Byte
  err : Option GoError

/-- One request being handled: the response writer and the body reader sharing it. -/
structure Session where
  rw : responseWriter
  br : bodyReader

/-- The method `bodyReader.Read` for a destination of `n` bytes, returning the
bytes copied, the error, and the new state. -/
def bodyReader.Read (s : Session) (n : Nat) : (List Byte × Option GoError) × Session :=
  if 0 < s.br.buf.length then
    ((s.br.buf.take n, none), { s with br := { s.br with buf := s.br.buf.drop n } })
  else
    match s.br.err with
    | some e => (([], some e), s)
    | none =>
      let hs : Option GoError × Session :=
        if s.br.expectContinue then
          let s1 : Session := { s with br := { s.br with expectContinue := false } }
          if !s1.rw.sentHeader then
            let r := s1.rw.stream.Send SendSite.expectContinue { statusCode := 100 }
            let s2 : Session := { s1 with rw := { s1.rw with stream := r.2 } }
            match r.1 with
            | some e => (some e, { rw := s2.rw.failed, br := { s2.br with err := some e } })
            | none => (none, s2)
          else (none, s1)
        else (none, s)
      match hs.1 with
      | some e => (([], some e), hs.2)
      | none =>
        let s3 := hs.2
        let r := s3.rw.stream.Recv
        let s4 : Session := { s3 with rw := { s3.rw with stream := r.2 } }
        match r.1 with
        | Except.error e =>
          let s5 : Session := { s4 with br := { s4.br with err := some e } }
          (([], some e), if e ≠ GoError.EOF then { s5 with rw := s5.rw.failed } else s5)
        | Except.ok msg =>
          ((msg.bodyData.take n, none),
            { s4 with br := { s4.br with buf := msg.bodyData.drop n } })

/-- The method `bodyReader.Close`. -/
def bodyReader.Close (s : Session) : Session :=
  { s with br := { s.br with err := some GoError.ErrClosedPipe } }

/-- One operation of a handler on the response writer or the request body. -/
inductive Op where
  | header (f : Header → Header)
  | writeHeader (code : Int)
  | write (p : List Byte)
  | read (n : Nat)
  | close

/-- The effect of one operation on the session. -/
def Session.step (s : Session) : Op → Session
  | Op.header f => { s with rw := { s.rw with header := f s.rw.header } }
  | Op.writeHeader code => { s with rw := s.rw.WriteHeader code }
  | Op.write p => { s with rw := (s.rw.Write p).2 }
  | Op.read n => (bodyReader.Read s n).2
  | Op.close => bodyReader.Close s

/-- Whether an operation is `WriteHeader` or `Write`. -/
def Op.writesStatus : Op → Bool
  | Op.writeHeader _ => true
  | Op.write _ => true
  | _ => false

/-- A sequential run of operations. -/
def Session.run (s : Session) (ops : List Op) : Session := ops.foldl Session.step s

/-- Successive `Read` calls with destination sizes `sizes i, sizes (i+1), ...`
until one returns an error: the bytes returned, concatenated, and that error.
`none` when `fuel` calls did not reach an error. -/
def readToEnd (sizes : Nat → Nat) : Nat → Nat → Session → Option (List Byte × GoError)
  | 0, _, _ => none
  | fuel + 1, i, s =>
    match bodyReader.Read s (sizes i) with
    | ((data, none), s1) =>
      (readToEnd sizes fuel (i + 1) s1).map fun r => (data ++ r.1, r.2)
    | ((data, some e), _) => some (data, e)

/-! ## Receiver side: the RPC endpoint -/

/-- The fields of `http.Request` that `receiver.HTTP` fills in and
`handler.ServeHTTP` reads; the body is the body reader of the session
(receiver) or a separate `Body` (forwarder). -/
structure Request where
  method : String
  url : String
  proto : String
  protoMajor : Int
  protoMinor : Int
  header : Header
  contentLength : Int
  remoteAddr : String

/-- A local `http.Handler`, as the tree of the operations it performs on the
response writer and the request body, each continuation depending on what the
operation returned. -/
inductive Handler where
  | ret
  | header (f : Header → Header) (next : Handler)
  | writeHeader (code : Int) (next : Handler)
  | write (p : List Byte) (next : Nat × Option GoError → Handler)
  | read (n : Nat) (next : List Byte × Option GoError → Handler)
  | close (next : Handler)

/-- Running a handler on a session. -/
def Handler.ServeHTTP : Handler → Session → Session
  | Handler.ret, s => s
  | Handler.header f next, s => next.ServeHTTP (s.step (Op.header f))
  | Handler.writeHeader code next, s => next.ServeHTTP (s.step (Op.writeHeader code))
  | Handler.write p next, s =>
    let r := s.rw.Write p
    (next r.1).ServeHTTP { s with rw := r.2 }
  | Handler.read n next, s =>
    let r := bodyReader.Read s n
    (next r.1).ServeHTTP r.2
  | Handler.close next, s => next.ServeHTTP (bodyReader.Close s)

/-- Whether a handler performs no operation on the response writer and no body
read: it returns, possibly after closing the request body. -/
def Handler.idle : Handler → Bool
  | Handler.ret => true
  | Handler.close next => next.idle
  | _ => false

/-- The library functions `receiver.HTTP` calls: the error of
`http.NewRequestWithContext` for a method and URL, `http.ParseHTTPVersion`, and
`strconv.ParseInt(s, 10, 64)`. -/
structure NetHTTP where
  newRequestErr : String → String → Option GoError
  parseHTTPVersion : String → Option (Int × Int)
  parseInt : String → Option Int

/-- The method `receiver.HTTP`: the error returned to the RPC layer and the
final state of the stream. The deferred `cancel()` is not a call of the failure
callback by the writer or the reader and is not recorded. -/
def receiver.HTTP (lib : NetHTTP) (handler : Request → Handler) (stream : ServerStream) :
    Option GoError × ServerStream :=
  let r := stream.Recv
  match r.1 with
  | Except.error e => (some e, r.2)
  | Except.ok msg =>
    match lib.newRequestErr msg.method msg.url with
    | some e => (some e, r.2)
    | none =>
      match lib.parseHTTPVersion msg.proto with
      | none => (some (GoError.other ("malformed HTTP version " ++ msg.proto.quote)), r.2)
      | some v =>
        let hdr := decodeHeaders msg.headers
        let req : Request :=
          { method := msg.method, url := msg.url, proto := msg.proto,
            protoMajor := v.1, protoMinor := v.2, header := hdr,
            contentLength :=
              match lib.parseInt (Header.Get hdr "Content-Length") with
              | some n => n
              | none => -1,
            remoteAddr := msg.remoteAddr }
        let rw : responseWriter := { header := [], sentHeader := false, stream := r.2 }
        let br : bodyReader :=
          { expectContinue := Header.Get hdr "Expect" == "100-continue", buf := [], err := none }
        let s := (handler req).ServeHTTP { rw := rw, br := br }
        let rw1 := s.rw.WriteHeader 200
        (none, rw1.stream)

/-! ## Forwarder side -/

/-- The UTF-8 bytes of a string. -/
def stringBytes (s : String) : List Byte := (s.data.map String.utf8EncodeChar).flatten

/-- The downstream `http.ResponseWriter` of the forwarder: the header map, the
status of the first `WriteHeader`, the bytes handed to `Write`, and the number of
`Write` calls. -/
structure ResponseRecorder where
  header : Header
  code : Option Int
  body : List Byte
  writes : Nat

/-- The call `w.WriteHeader(code)`: only the first status counts. -/
def ResponseRecorder.WriteHeader (w : ResponseRecorder) (code : Int) : ResponseRecorder :=
  match w.code with
  | some _ => w
  | none => { w with code := some code }

/-- The call `w.Write(p)`: an implicit `WriteHeader(200)` when no status was
written, then the bytes; the outcome of the k-th call is `writeErr k`. -/
def ResponseRecorder.Write (writeErr : Nat → Option GoError) (w : ResponseRecorder)
    (p : List Byte) : Option GoError × ResponseRecorder :=
  let w1 := w.WriteHeader 200
  (writeErr w1.writes, { w1 with body := w1.body ++ p, writes := w1.writes + 1 })

/-- Go's `http.Error(w, error, code)`: it deletes Content-Length, sets the
Content-Type and X-Content-Type-Options headers, writes the status and then the
message followed by a newline. -/
def httpError (writeErr : Nat → Option GoError) (w : ResponseRecorder) (error : String)
    (code : Int) : ResponseRecorder :=
  let h1 := Header.Del w.header "Content-Length"
  let h2 := Header.Set h1 "Content-Type" "text/plain; charset=utf-8"
  let h3 := Header.Set h2 "X-Content-Type-Options" "nosniff"
  let w1 := ({ w with header := h3 } : ResponseRecorder).WriteHeader code
  (ResponseRecorder.Write writeErr w1 (stringBytes (error ++ "\n"))).2

/-- What the channel, the peer and the downstream connection will do during one
`handler.ServeHTTP`: the error of opening the stream, the outcome of the k-th
`Send`, the error of `CloseSend`, the response messages `Recv` delivers and the
error it returns after them, and the outcome of the k-th downstream `Write`. -/
structure ClientEnv where
  openErr : Option GoError
  sendErr : Nat → Option GoError
  closeErr : Option GoError
  incoming : List HTTPResponse
  recvFinal : GoError
  writeErr : Nat → Option GoError

/-- A call made by the main task of `handler.ServeHTTP`: opening the stream,
`stream.Send`, `go transmitBody(...)`, and `stream.Recv` with the message it
returned (`none` for an error). -/
inductive FEvent where
  | openStream
  | send (m : HTTPRequest)
  | goTransmitBody
  | recv (m : Option HTTPResponse)
  deriving DecidableEq, Repr

/-- The state of the main task of `handler.ServeHTTP`. -/
structure FState where
  w : ResponseRecorder
  trace : List FEvent

/-- The second loop of `handler.ServeHTTP`: relay body chunks until a receive or
a downstream write fails. -/
def ServeHTTP.relayBody (env : ClientEnv) : List HTTPResponse → FState → FState
  | [], st => { st with trace := st.trace ++ [FEvent.recv none] }
  | msg :: rest, st =>
    let r := ResponseRecorder.Write env.writeErr st.w msg.bodyData
    let st1 : FState := { w := r.2, trace := st.trace ++ [FEvent.recv (some msg)] }
    match r.1 with
    | some _ => st1
    | none => ServeHTTP.relayBody env rest st1

/-- The first loop of `handler.ServeHTTP`, followed by the second: merge the
headers of every message, start the body transmission on status 100, write the
first other status downstream. -/
def ServeHTTP.awaitStatus (env : ClientEnv) : List HTTPResponse → FState → FState
  | [], st =>
    { w := httpError env.writeErr st.w "Upstream error" 502,
      trace := st.trace ++ [FEvent.recv none] }
  | msg :: rest, st =>
    let w1 : ResponseRecorder := { st.w with header := mergeHeaders st.w.header msg.headers }
    let tr := st.trace ++ [FEvent.recv (some msg)]
    if msg.statusCode = 100 then
      ServeHTTP.awaitStatus env rest { w := w1, trace := tr ++ [FEvent.goTransmitBody] }
    else
      ServeHTTP.relayBody env rest { w := w1.WriteHeader msg.statusCode, trace := tr }

/-- The method `handler.ServeHTTP`, for the downstream writer `w`. -/
def handler.ServeHTTP (env : ClientEnv) (w : ResponseRecorder) (req : Request) : FState :=
  match env.openErr with
  | some _ =>
    { w := httpError env.writeErr w "Upstream error" 502, trace := [FEvent.openStream] }
  | none =>
    let freq : HTTPRequest :=
      { method := req.method, url := req.url, proto := req.proto,
        remoteAddr := req.remoteAddr, headers := encodeHeaders req.header }
    let tr := [FEvent.openStream, FEvent.send freq]
    match env.sendErr 0 with
    | some _ => { w := httpError env.writeErr w "Upstream error" 502, trace := tr }
    | none =>
      let tr1 :=
        if Header.Get req.header "Expect" ≠ "100-continue" then tr ++ [FEvent.goTransmitBody]
        else tr
      ServeHTTP.awaitStatus env env.incoming { w := w, trace := tr1 }

/-- One result `(n, err)` of `req.Body.Read(buf)`: the bytes read and the error. -/
structure ReadResult where
  data : List Byte
  err : Option GoError

/-- The request body of the forwarder, as the results its `Read` calls will
return in order; once they are used up `Read` returns `(0, io.EOF)`. -/
abbrev Body := List ReadResult

/-- The bytes a body delivers up to its end of input; `none` when a read fails
with another error first. -/
def Body.content : Body → Option (List Byte)
  | [] => some []
  | r :: rest =>
    match r.err with
    | none => (Body.content rest).map fun b => r.data ++ b
    | some GoError.EOF => some r.data
    | some _ => none

/-- A call made by `transmitBody` on the stream or on the failure callback. -/
inductive TEvent where
  | send (m : HTTPRequest)
  | closeSend
  | failed
  deriving DecidableEq, Repr

/-- The end-of-input branch of `transmitBody`: `stream.CloseSend()`. -/
def transmitBody.atEOF (env : ClientEnv) : List TEvent :=
  match env.closeErr with
  | some _ => [TEvent.closeSend, TEvent.failed]
  | none => [TEvent.closeSend]

/-- The function `transmitBody`, run on a stream on which `k` sends were made:
the calls it makes. The buffer holds 4096 bytes, so a read returns at most that
many. -/
def transmitBody (env : ClientEnv) : Nat → Body → List TEvent
  | _, [] => transmitBody.atEOF env
  | k, r :: rest =>
    let chunk := r.data.take 4096
    if 0 < chunk.length then
      match env.sendErr k with
      | some _ => [TEvent.send { bodyData := chunk }, TEvent.failed]
      | none =>
        TEvent.send { bodyData := chunk } ::
          (match r.err with
          | none => transmitBody env (k + 1) rest
          | some GoError.EOF => transmitBody.atEOF env
          | some _ => [TEvent.failed])
    else
      match r.err with
      | none => transmitBody env k rest
      | some GoError.EOF => transmitBody.atEOF env
      | some _ => [TEvent.failed]

/-- The messages `transmitBody` handed to `stream.Send`. -/
def transmitted : List TEvent → List HTTPRequest
  | [] => []
  | TEvent.send m :: t => m :: transmitted t
  | _ :: t => transmitted t

/-- The bound on the number of `Read` calls needed to drain a session: the
buffered bytes, plus one call and the payload bytes for every message still to
be delivered. -/
def readsLeft (s : Session) : Nat :=
  s.br.buf.length + (s.rw.stream.incoming.map fun m => m.bodyData.length + 1).sum

/-! ## Sample values -/

/-- A stream on which nothing happened yet, all of whose sends succeed and whose
peer delivers `incoming` and then closes its send side. -/
def sampleStream (incoming : List HTTPRequest) : ServerStream :=
  { incoming := incoming, recvFinal := GoError.EOF, sendErr := fun _ => none, sends := 0,
    trace := [] }

/-- An unsent response writer holding one header. -/
def sampleWriter : responseWriter :=
  { header := [("X-Test", ["1"])], sentHeader := false, stream := sampleStream [] }

/-- An unsent response writer whose first send fails and whose later sends succeed. -/
def failingWriter : responseWriter :=
  { header := [], sentHeader := false,
    stream :=
      { incoming := [], recvFinal := GoError.EOF,
        sendErr := fun k => if k = 0 then some (GoError.other "send failed") else none,
        sends := 0, trace := [] } }

/-- Library functions that accept every method and URL and read every protocol
string as HTTP/1.1. -/
def sampleLib : NetHTTP :=
  { newRequestErr := fun _ _ => none, parseHTTPVersion := fun _ => some (1, 1),
    parseInt := fun _ => none }

/-- The Request Metadata message of a GET request. -/
def sampleGet : HTTPRequest := { method := "GET", url := "/", proto := "HTTP/1.1" }

/-- A channel whose stream opens, whose sends and downstream writes succeed, and
whose peer delivers `incoming` and then ends the stream. -/
def sampleEnv (incoming : List HTTPResponse) : ClientEnv :=
  { openErr := none, sendErr := fun _ => none, closeErr := none, incoming := incoming,
    recvFinal := GoError.EOF, writeErr := fun _ => none }

/-- A downstream writer to which nothing was written. -/
def freshRecorder : ResponseRecorder := { header := [], code := none, body := [], writes := 0 }

/-- A POST request without an Expect header. -/
def sampleRequest : Request :=
  { method := "POST", url := "/upload", proto := "HTTP/1.1", protoMajor := 1, protoMinor := 1,
    header := [], contentLength := 3, remoteAddr := "" }

/-- A POST request with `Expect: 100-continue`. -/
def sampleExpectRequest : Request :=
  { sampleRequest with header := [("Expect", ["100-continue"])] }

/-- A fresh session for a request that declared `Expect: 100-continue`, whose
peer delivers one body chunk. -/
def sampleSession : Session :=
  { rw := { header := [("X-Test", ["1"])], sentHeader := false,
            stream := sampleStream [{ bodyData := [97, 98, 99] }] },
    br := { expectContinue := true, buf := [], err := none } }

/-- A request body delivering `abc` in two reads, the second one together with
the end of input. -/
def sampleBody : Body := [{ data := [97, 98], err := none }, { data := [99], err := some GoError.EOF }]

/-- A fresh session whose peer delivers what `transmitBody` sends for `sampleBody`. -/
def sampleUpload : Session :=
  { rw := { header := [], sentHeader := false,
            stream := sampleStream (transmitted (transmitBody (sampleEnv []) 1 sampleBody)) },
    br := { expectContinue := true, buf := [], err := none } }

/-! ## Lemmas on traces and header maps -/

theorem sentMessages_append (a b : List Event) :
    sentMessages (a ++ b) = sentMessages a ++ sentMessages b := by
  induction a with
  | nil => rfl
  | cons e t ih => cases e <;> simp [sentMessages, ih]

theorem failedCalls_append (a b : List Event) :
    failedCalls (a ++ b) = failedCalls a + failedCalls b := by
  simp [failedCalls]

theorem toInt32_of_range (c : Int) (hlo : -2147483648 ≤ c) (hhi : c < 2147483648) :
    toInt32 c = c := by
  unfold toInt32
  omega

theorem Header.set_of_not_mem (h : Header) (k : String) (vs : List String)
    (hk : k ∉ Header.keys h) : Header.set h k vs = h ++ [(k, vs)] := by
  induction h with
  | nil => rfl
  | cons kv t ih =>
    obtain ⟨k', vs'⟩ := kv
    simp only [Header.keys, List.map_cons, List.mem_cons, not_or] at hk
    have hne : ¬ k' = k := fun h => hk.1 h.symm
    simp only [Header.set, hne, if_false, List.cons_append]
    rw [ih (by simpa [Header.keys] using hk.2)]

theorem Header.lookup_of_mem (h : Header) (k : String) (vs : List String)
    (hnd : (Header.keys h).Nodup) (hmem : (k, vs) ∈ h) : Header.lookup h k = some vs := by
  induction h with
  | nil => simp at hmem
  | cons kv t ih =>
    obtain ⟨k', vs'⟩ := kv
    simp only [Header.keys, List.map_cons, List.nodup_cons] at hnd
    rcases List.mem_cons.mp hmem with heq | htl
    · cases heq
      simp [Header.lookup]
    · have hne : ¬ k' = k := by
        intro h
        subst h
        exact hnd.1 (List.mem_map_of_mem Prod.fst htl)
      simp only [Header.lookup, hne, if_false]
      exact ih hnd.2 htl

theorem mergeHeaders_of_distinct (H init : Header)
    (hnd : (Header.keys init ++ (Header.keys H).map CanonicalHeaderKey).Nodup) :
    mergeHeaders init (encodeHeaders H)
      = init ++ H.map (fun kv => (CanonicalHeaderKey kv.1, kv.2)) := by
  induction H generalizing init with
  | nil => simp [mergeHeaders, encodeHeaders]
  | cons kv t ih =>
    obtain ⟨k, vs⟩ := kv
    have hk : CanonicalHeaderKey k ∉ Header.keys init := by
      intro hmem
      have := List.nodup_append.mp hnd
      exact this.2.2 hmem (by simp [Header.keys])
    have hstep : mergeHeaders init (encodeHeaders ((k, vs) :: t))
        = mergeHeaders (Header.set init (CanonicalHeaderKey k) vs) (encodeHeaders t) := by
      simp [mergeHeaders, encodeHeaders]
    rw [hstep, Header.set_of_not_mem init _ vs hk, ih]
    · simp
    · simp only [Header.keys, List.map_append, List.map_cons, List.map_nil,
        List.append_assoc, List.singleton_append] at hnd ⊢
      exact hnd

/-! ## Lemmas on the forwarder's trace -/

theorem relayBody_trace (env : ClientEnv) (msgs : List HTTPResponse) (st : FState) :
    ∃ ext, (ServeHTTP.relayBody env msgs st).trace = st.trace ++ ext
      ∧ ∀ e ∈ ext, ∃ m, e = FEvent.recv m := by
  induction msgs generalizing st with
  | nil => exact ⟨[FEvent.recv none], rfl, by simp⟩
  | cons msg rest ih =>
    simp only [ServeHTTP.relayBody]
    split
    · exact ⟨[FEvent.recv (some msg)], rfl, by simp⟩
    · obtain ⟨ext, hext, hall⟩ := ih
        { w := (ResponseRecorder.Write env.writeErr st.w msg.bodyData).2,
          trace := st.trace ++ [FEvent.recv (some msg)] }
      refine ⟨FEvent.recv (some msg) :: ext, ?_, ?_⟩
      · rw [hext]
        simp
      · intro e he
        rcases List.mem_cons.mp he with h | h
        · exact ⟨_, h⟩
        · exact hall e h

theorem awaitStatus_trace (env : ClientEnv) (msgs : List HTTPResponse) (st : FState) :
    ∃ ext, (ServeHTTP.awaitStatus env msgs st).trace = st.trace ++ ext
      ∧ (∃ m t, ext = FEvent.recv m :: t)
      ∧ (∀ pre post, ext = pre ++ FEvent.goTransmitBody :: post →
          ∃ pre' m, pre = pre' ++ [FEvent.recv (some m)] ∧ m.statusCode = 100)
      ∧ ext.count FEvent.goTransmitBody
          = (msgs.takeWhile fun m => decide (m.statusCode = 100)).length := by
  induction msgs generalizing st with
  | nil =>
    refine ⟨[FEvent.recv none], rfl, ⟨_, _, rfl⟩, ?_, by simp⟩
    intro pre post h
    rcases pre with _ | ⟨a, pre⟩
    · simp at h
    · simp at h
  | cons msg rest ih =>
    by_cases h100 : msg.statusCode = 100
    · obtain ⟨ext, hext, _, hguard, hcount⟩ := ih
        { w := { st.w with header := mergeHeaders st.w.header msg.headers },
          trace := st.trace ++ [FEvent.recv (some msg)] ++ [FEvent.goTransmitBody] }
      refine ⟨FEvent.recv (some msg) :: FEvent.goTransmitBody :: ext, ?_, ⟨_, _, rfl⟩, ?_, ?_⟩
      · simp only [ServeHTTP.awaitStatus, h100, if_true]
        rw [hext]
        simp
      · intro pre post h
        rcases pre with _ | ⟨a, pre⟩
        · simp at h
        · rcases pre with _ | ⟨b, pre⟩
          · simp only [List.cons_append, List.nil_append, List.cons.injEq] at h
            exact ⟨[], msg, by simp [h.1], h100⟩
          · simp only [List.cons_append, List.cons.injEq] at h
            obtain ⟨pre', m, hpre, hm⟩ := hguard pre post h.2.2
            exact ⟨a :: b :: pre', m, by simp [hpre], hm⟩
      · simp [List.takeWhile_cons, h100, hcount, List.count_cons]
    · obtain ⟨ext, hext, hall⟩ := relayBody_trace env rest
        { w := ({ st.w with header := mergeHeaders st.w.header msg.headers } :
            ResponseRecorder).WriteHeader msg.statusCode,
          trace := st.trace ++ [FEvent.recv (some msg)] }
      have hno : ∀ l : List FEvent, (∀ e ∈ l, ∃ m, e = FEvent.recv m) →
          FEvent.goTransmitBody ∉ l := by
        intro l hl hmem
        obtain ⟨m, hm⟩ := hl _ hmem
        cases hm
      refine ⟨FEvent.recv (some msg) :: ext, ?_, ⟨_, _, rfl⟩, ?_, ?_⟩
      · simp only [ServeHTTP.awaitStatus, h100, if_false]
        rw [hext]
        simp
      · intro pre post h
        exfalso
        have hmem : FEvent.goTransmitBody ∈ FEvent.recv (some msg) :: ext := by
          rw [h]
          simp
        rcases List.mem_cons.mp hmem with h1 | h1
        · cases h1
        · exact hno ext hall h1
      · have : List.count FEvent.goTransmitBody ext = 0 :=
          List.count_eq_zero_of_not_mem (hno ext hall)
        simp [List.takeWhile_cons, h100, List.count_cons, this]

/-! ## Lemmas on the response writer and the body reader -/

theorem WriteHeader_sentHeader (rw : responseWriter) (c : Int) :
    (rw.WriteHeader c).sentHeader = true := by
  cases hs : rw.sentHeader <;> cases h : rw.stream.sendErr rw.stream.sends <;>
    simp [responseWriter.WriteHeader, responseWriter.failed, ServerStream.Send, hs, h]

theorem WriteHeader_sent (rw : responseWriter) (c : Int) :
    sentMessages (rw.WriteHeader c).stream.trace
      = sentMessages rw.stream.trace
        ++ (if rw.sentHeader then []
            else [(SendSite.metadata,
              { statusCode := toInt32 c, headers := encodeHeaders rw.header })]) := by
  cases hs : rw.sentHeader <;> cases h : rw.stream.sendErr rw.stream.sends <;>
    simp [responseWriter.WriteHeader, responseWriter.failed, ServerStream.Send, hs, h,
      sentMessages_append, sentMessages]

theorem Write_sentHeader (rw : responseWriter) (p : List Byte) :
    (rw.Write p).2.sentHeader = true := by
  have h1 := WriteHeader_sentHeader rw 200
  cases h : (rw.WriteHeader 200).stream.sendErr (rw.WriteHeader 200).stream.sends <;>
    simp [responseWriter.Write, responseWriter.failed, ServerStream.Send, h, h1]

theorem Write_sent (rw : responseWriter) (p : List Byte) :
    sentMessages (rw.Write p).2.stream.trace
      = sentMessages rw.stream.trace
        ++ (if rw.sentHeader then []
            else [(SendSite.metadata,
              { statusCode := 200, headers := encodeHeaders rw.header })])
        ++ [(SendSite.body, { bodyData := p })] := by
  have h1 := WriteHeader_sent rw 200
  have h200 : toInt32 200 = 200 := by decide
  rw [h200] at h1
  cases h : (rw.WriteHeader 200).stream.sendErr (rw.WriteHeader 200).stream.sends <;>
    simp [responseWriter.Write, responseWriter.failed, ServerStream.Send, h,
      sentMessages_append, sentMessages, h1]

theorem Read_sentHeader (s : Session) (n : Nat) :
    (bodyReader.Read s n).2.rw.sentHeader = s.rw.sentHeader := by
  unfold bodyReader.Read
  cases hb : decide (0 < s.br.buf.length) <;> cases he : s.br.err <;>
    cases hx : s.br.expectContinue <;> cases hs : s.rw.sentHeader <;>
    cases hsd : s.rw.stream.sendErr s.rw.stream.sends <;>
    cases hin : s.rw.stream.incoming <;>
    simp_all [ServerStream.Send, ServerStream.Recv, responseWriter.failed] <;>
    split <;> simp_all

theorem Read_header (s : Session) (n : Nat) :
    (bodyReader.Read s n).2.rw.header = s.rw.header := by
  unfold bodyReader.Read
  cases hb : decide (0 < s.br.buf.length) <;> cases he : s.br.err <;>
    cases hx : s.br.expectContinue <;> cases hs : s.rw.sentHeader <;>
    cases hsd : s.rw.stream.sendErr s.rw.stream.sends <;>
    cases hin : s.rw.stream.incoming <;>
    simp_all [ServerStream.Send, ServerStream.Recv, responseWriter.failed] <;>
    split <;> simp_all

theorem Read_expectContinue (s : Session) (n : Nat)
    (h : s.br.expectContinue = false ∨ (s.br.buf = [] ∧ s.br.err = none)) :
    (bodyReader.Read s n).2.br.expectContinue = false := by
  unfold bodyReader.Read
  cases hb : decide (0 < s.br.buf.length) <;> cases he : s.br.err <;>
    cases hx : s.br.expectContinue <;> cases hs : s.rw.sentHeader <;>
    cases hsd : s.rw.stream.sendErr s.rw.stream.sends <;>
    cases hin : s.rw.stream.incoming <;>
    simp_all [ServerStream.Send, ServerStream.Recv, responseWriter.failed] <;>
    split <;> simp_all

theorem Read_sent (s : Session) (n : Nat) :
    sentMessages (bodyReader.Read s n).2.rw.stream.trace = sentMessages s.rw.stream.trace
      ∨ (s.rw.sentHeader = false ∧ s.br.expectContinue = true
          ∧ sentMessages (bodyReader.Read s n).2.rw.stream.trace
            = sentMessages s.rw.stream.trace
              ++ [(SendSite.expectContinue, { statusCode := 100 })]) := by
  unfold bodyReader.Read
  cases hb : decide (0 < s.br.buf.length) <;> cases he : s.br.err <;>
    cases hx : s.br.expectContinue <;> cases hs : s.rw.sentHeader <;>
    cases hsd : s.rw.stream.sendErr s.rw.stream.sends <;>
    cases hin : s.rw.stream.incoming <;>
    simp_all [ServerStream.Send, ServerStream.Recv, responseWriter.failed,
      sentMessages_append, sentMessages] <;>
    split <;> simp_all [sentMessages_append, sentMessages]

theorem ServeHTTP_of_idle (h : Handler) (s : Session) (hidle : h.idle = true) :
    (h.ServeHTTP s).rw = s.rw := by
  induction h generalizing s with
  | ret => rfl
  | close next ih =>
    simp only [Handler.idle] at hidle
    simp only [Handler.ServeHTTP]
    rw [ih _ hidle]
    rfl
  | header f next _ => simp [Handler.idle] at hidle
  | writeHeader c next _ => simp [Handler.idle] at hidle
  | write p next _ => simp [Handler.idle] at hidle
  | read n next _ => simp [Handler.idle] at hidle

theorem step_expectContinue (s : Session) (op : Op) (h : s.br.expectContinue = false) :
    (s.step op).br.expectContinue = false := by
  cases op with
  | read n => exact Read_expectContinue s n (Or.inl h)
  | _ => simpa [Session.step, bodyReader.Close] using h

theorem run_expectContinue (ops : List Op) (s : Session) (h : s.br.expectContinue = false) :
    (s.run ops).br.expectContinue = false := by
  induction ops generalizing s with
  | nil => exact h
  | cons op rest ih => exact ih (s.step op) (step_expectContinue s op h)

theorem step_sentHeader_of_quiet (s : Session) (op : Op) (hq : op.writesStatus = false) :
    (s.step op).rw.sentHeader = s.rw.sentHeader := by
  cases op with
  | read n => exact Read_sentHeader s n
  | writeHeader c => simp [Op.writesStatus] at hq
  | write p => simp [Op.writesStatus] at hq
  | header f => rfl
  | close => rfl

theorem run_sentHeader_of_quiet (ops : List Op) (s : Session)
    (hq : ∀ op ∈ ops, op.writesStatus = false) :
    (s.run ops).rw.sentHeader = s.rw.sentHeader := by
  induction ops generalizing s with
  | nil => rfl
  | cons op rest ih =>
    have h1 := ih (s.step op) (fun o ho => hq o (List.mem_cons_of_mem _ ho))
    have h2 := step_sentHeader_of_quiet s op (hq op (List.mem_cons_self _ _))
    simpa [Session.run, h2] using h1

theorem step_sent_ordered (s : Session) (op : Op) (a b : List (SendSite × HTTPResponse))
    (hsplit : sentMessages s.rw.stream.trace = a ++ b)
    (ha : ∀ x ∈ a, x.1 ≠ SendSite.metadata) (hb : ∀ x ∈ b, x.1 ≠ SendSite.expectContinue)
    (hflag : s.rw.sentHeader = false → b = []) :
    ∃ a' b', sentMessages (s.step op).rw.stream.trace = a' ++ b'
      ∧ (∀ x ∈ a', x.1 ≠ SendSite.metadata) ∧ (∀ x ∈ b', x.1 ≠ SendSite.expectContinue)
      ∧ ((s.step op).rw.sentHeader = false → b' = []) := by
  cases op with
  | header f => exact ⟨a, b, hsplit, ha, hb, hflag⟩
  | close => exact ⟨a, b, hsplit, ha, hb, hflag⟩
  | writeHeader c =>
    refine ⟨a, b ++ (if s.rw.sentHeader then []
      else [(SendSite.metadata,
        { statusCode := toInt32 c, headers := encodeHeaders s.rw.header })]), ?_, ha, ?_, ?_⟩
    · simp only [Session.step, WriteHeader_sent, hsplit, List.append_assoc]
    · intro x hx
      rcases List.mem_append.mp hx with h | h
      · exact hb x h
      · split at h
        · simp at h
        · simp only [List.mem_singleton] at h
          subst h
          simp
    · intro h
      simp [Session.step, WriteHeader_sentHeader] at h
  | write p =>
    refine ⟨a, b ++ ((if s.rw.sentHeader then []
      else [(SendSite.metadata,
        { statusCode := 200, headers := encodeHeaders s.rw.header })])
      ++ [(SendSite.body, { bodyData := p })]), ?_, ha, ?_, ?_⟩
    · simp only [Session.step, Write_sent, hsplit, List.append_assoc]
    · intro x hx
      rcases List.mem_append.mp hx with h | h
      · exact hb x h
      · rcases List.mem_append.mp h with h | h
        · split at h
          · simp at h
          · simp only [List.mem_singleton] at h
            subst h
            simp
        · simp only [List.mem_singleton] at h
          subst h
          simp
    · intro h
      simp [Session.step, Write_sentHeader] at h
  | read n =>
    have hsame : (s.step (Op.read n)).rw.sentHeader = s.rw.sentHeader := Read_sentHeader s n
    rcases Read_sent s n with h | ⟨hun, _, h⟩
    · refine ⟨a, b, ?_, ha, hb, ?_⟩
      · simp only [Session.step, h, hsplit]
      · rw [hsame]
        exact hflag
    · have hbnil := hflag hun
      subst hbnil
      refine ⟨a ++ [(SendSite.expectContinue, { statusCode := 100 })], [], ?_, ?_, ?_, ?_⟩
      · simp only [Session.step, h, hsplit, List.append_nil]
      · intro x hx
        rcases List.mem_append.mp hx with h | h
        · exact ha x h
        · simp only [List.mem_singleton] at h
          subst h
          simp
      · simp
      · intro _
        rfl

theorem run_sent_ordered (ops : List Op) (s : Session) (a b : List (SendSite × HTTPResponse))
    (hsplit : sentMessages s.rw.stream.trace = a ++ b)
    (ha : ∀ x ∈ a, x.1 ≠ SendSite.metadata) (hb : ∀ x ∈ b, x.1 ≠ SendSite.expectContinue)
    (hflag : s.rw.sentHeader = false → b = []) :
    ∃ a' b', sentMessages (s.run ops).rw.stream.trace = a' ++ b'
      ∧ (∀ x ∈ a', x.1 ≠ SendSite.metadata) ∧ (∀ x ∈ b', x.1 ≠ SendSite.expectContinue) := by
  induction ops generalizing s a b with
  | nil => exact ⟨a, b, hsplit, ha, hb⟩
  | cons op rest ih =>
    obtain ⟨a', b', h1, h2, h3, h4⟩ := step_sent_ordered s op a b hsplit ha hb hflag
    exact ih (s.step op) a' b' h1 h2 h3 h4

/-! ## Lemmas on the body round trip -/

theorem transmitted_map_send (msgs : List HTTPRequest) (tail : List TEvent)
    (htail : transmitted tail = []) :
    transmitted (msgs.map TEvent.send ++ tail) = msgs := by
  induction msgs with
  | nil => simpa using htail
  | cons m t ih => simp [transmitted, ih]

theorem transmitBody_of_ok (env : ClientEnv) (hsend : ∀ j, env.sendErr j = none)
    (hclose : env.closeErr = none) (body : Body) (k : Nat) (B : List Byte)
    (hwf : ∀ r ∈ body, r.data.length ≤ 4096) (hB : Body.content body = some B) :
    ∃ msgs : List HTTPRequest,
      transmitBody env k body = msgs.map TEvent.send ++ [TEvent.closeSend]
        ∧ (msgs.map fun m => m.bodyData).flatten = B := by
  induction body generalizing k B with
  | nil =>
    refine ⟨[], ?_, ?_⟩
    · simp [transmitBody, transmitBody.atEOF, hclose]
    · simp [Body.content] at hB
      simp [hB]
  | cons r rest ih =>
    have hlen : r.data.length ≤ 4096 := hwf r (List.mem_cons_self _ _)
    have htake : r.data.take 4096 = r.data := List.take_of_length_le hlen
    have hwf' : ∀ r' ∈ rest, r'.data.length ≤ 4096 :=
      fun r' h => hwf r' (List.mem_cons_of_mem _ h)
    cases herr : r.err with
    | none =>
      simp only [Body.content, herr, Option.map_eq_some'] at hB
      obtain ⟨B', hB', hBeq⟩ := hB
      by_cases hpos : 0 < r.data.length
      · obtain ⟨msgs, hmsgs, hcat⟩ := ih (k + 1) B' hwf' hB'
        refine ⟨{ bodyData := r.data } :: msgs, ?_, ?_⟩
        · simp [transmitBody, htake, hpos, hsend, herr, hmsgs]
        · simp [hcat, hBeq]
      · obtain ⟨msgs, hmsgs, hcat⟩ := ih k B' hwf' hB'
        have hnil : r.data = [] := List.eq_nil_of_length_eq_zero (by omega)
        refine ⟨msgs, ?_, ?_⟩
        · simp [transmitBody, hnil, herr, hmsgs]
        · rw [hcat, ← hBeq, hnil]
          rfl
    | some e =>
      cases e with
      | EOF =>
        simp only [Body.content, herr, Option.some.injEq] at hB
        by_cases hpos : 0 < r.data.length
        · refine ⟨[{ bodyData := r.data }], ?_, ?_⟩
          · simp [transmitBody, htake, hpos, hsend, herr, transmitBody.atEOF, hclose]
          · simp [hB]
        · have hnil : r.data = [] := List.eq_nil_of_length_eq_zero (by omega)
          refine ⟨[], ?_, ?_⟩
          · simp [transmitBody, hnil, herr, transmitBody.atEOF, hclose]
          · rw [← hB, hnil]
            rfl
      | ErrClosedPipe => simp [Body.content, herr] at hB
      | other msg => simp [Body.content, herr] at hB

theorem Read_of_buffered (s : Session) (n : Nat) (hbuf : 0 < s.br.buf.length) :
    bodyReader.Read s n
      = ((s.br.buf.take n, none), { s with br := { s.br with buf := s.br.buf.drop n } }) := by
  simp [bodyReader.Read, hbuf]

theorem Read_at_end (s : Session) (n : Nat) (hbuf : s.br.buf = []) (herr : s.br.err = none)
    (hsend : ∀ j, s.rw.stream.sendErr j = none) (hin : s.rw.stream.incoming = []) :
    (bodyReader.Read s n).1 = ([], some s.rw.stream.recvFinal) := by
  unfold bodyReader.Read
  cases hx : s.br.expectContinue <;> cases hs : s.rw.sentHeader <;>
    simp_all [ServerStream.Send, ServerStream.Recv, responseWriter.failed]

theorem Read_of_message (s : Session) (n : Nat) (msg : HTTPRequest) (rest : List HTTPRequest)
    (hbuf : s.br.buf = []) (herr : s.br.err = none)
    (hsend : ∀ j, s.rw.stream.sendErr j = none) (hin : s.rw.stream.incoming = msg :: rest) :
    (bodyReader.Read s n).1 = (msg.bodyData.take n, none)
      ∧ (bodyReader.Read s n).2.br.buf = msg.bodyData.drop n
      ∧ (bodyReader.Read s n).2.br.err = none
      ∧ (bodyReader.Read s n).2.rw.stream.incoming = rest
      ∧ (bodyReader.Read s n).2.rw.stream.sendErr = s.rw.stream.sendErr
      ∧ (bodyReader.Read s n).2.rw.stream.recvFinal = s.rw.stream.recvFinal := by
  unfold bodyReader.Read
  cases hx : s.br.expectContinue <;> cases hs : s.rw.sentHeader <;>
    simp_all [ServerStream.Send, ServerStream.Recv, responseWriter.failed]

theorem readToEnd_of_continue (sizes : Nat → Nat) (fuel i : Nat) (s : Session)
    (data : List Byte) (h : (bodyReader.Read s (sizes i)).1 = (data, none)) :
    readToEnd sizes (fuel + 1) i s
      = (readToEnd sizes fuel (i + 1) (bodyReader.Read s (sizes i)).2).map
          fun r => (data ++ r.1, r.2) := by
  rcases hr : bodyReader.Read s (sizes i) with ⟨⟨d, e⟩, s1⟩
  rw [hr] at h
  simp only [Prod.mk.injEq] at h
  obtain ⟨hd, he⟩ := h
  subst hd he
  simp [readToEnd, hr]

theorem readToEnd_of_error (sizes : Nat → Nat) (fuel i : Nat) (s : Session)
    (data : List Byte) (e : GoError) (h : (bodyReader.Read s (sizes i)).1 = (data, some e)) :
    readToEnd sizes (fuel + 1) i s = some (data, e) := by
  rcases hr : bodyReader.Read s (sizes i) with ⟨⟨d, e'⟩, s1⟩
  rw [hr] at h
  simp only [Prod.mk.injEq] at h
  obtain ⟨hd, he⟩ := h
  subst hd he
  simp [readToEnd, hr]

theorem readToEnd_drains (sizes : Nat → Nat) (hsizes : ∀ i, 1 ≤ sizes i) (fuel : Nat) :
    ∀ (i : Nat) (s : Session), readsLeft s < fuel → s.br.err = none →
      (∀ j, s.rw.stream.sendErr j = none) → s.rw.stream.recvFinal = GoError.EOF →
      readToEnd sizes fuel i s
        = some (s.br.buf ++ (s.rw.stream.incoming.map fun m => m.bodyData).flatten,
            GoError.EOF) := by
  induction fuel with
  | zero => intro i s h; omega
  | succ fuel ih =>
    intro i s hfuel herr hsend hfinal
    by_cases hbuf : 0 < s.br.buf.length
    · have hread := Read_of_buffered s (sizes i) hbuf
      have h1 : (bodyReader.Read s (sizes i)).1 = (s.br.buf.take (sizes i), none) := by
        rw [hread]
      have hsz := hsizes i
      have hmeasure : readsLeft (bodyReader.Read s (sizes i)).2 < fuel := by
        rw [hread]
        simp only [readsLeft, List.length_drop] at hfuel ⊢
        omega
      have hih := ih (i + 1) (bodyReader.Read s (sizes i)).2 hmeasure
        (by rw [hread]; exact herr) (by rw [hread]; exact hsend) (by rw [hread]; exact hfinal)
      rw [readToEnd_of_continue sizes fuel i s _ h1, hih, hread]
      simp only [Option.map_some', ← List.append_assoc, List.take_append_drop]
    · have hnil : s.br.buf = [] := List.eq_nil_of_length_eq_zero (by omega)
      cases hin : s.rw.stream.incoming with
      | nil =>
        have h1 := Read_at_end s (sizes i) hnil herr hsend hin
        rw [readToEnd_of_error sizes fuel i s _ _ h1, hnil, hfinal]
        simp
      | cons msg rest =>
        obtain ⟨h1, h2, h3, h4, h5, h6⟩ := Read_of_message s (sizes i) msg rest hnil herr hsend hin
        rw [readToEnd_of_continue sizes fuel i s _ h1]
        have hmeasure : readsLeft (bodyReader.Read s (sizes i)).2 < fuel := by
          simp only [readsLeft, h2, h4, List.length_drop]
          simp only [readsLeft, hnil, hin, List.map_cons, List.sum_cons, List.length_nil] at hfuel
          omega
        rw [ih (i + 1) _ hmeasure h3 (by rw [h5]; exact hsend) (by rw [h6]; exact hfinal),
          h2, h4, hnil]
        simp only [Option.map_some', ← List.append_assoc, List.take_append_drop, List.map_cons,
          List.flatten_cons, List.nil_append]

/-! ## The claims -/

/-- C1: on an unsent response writer, `WriteHeader(c1)` followed (after any change
of the header map) by `WriteHeader(c2)` or by `Write(p)` hands exactly one
metadata message to the stream, with status `c1` and the headers present at the
first call; the second call adds no metadata message, and `Write` adds only its
body chunk. The status is a value of the wire type int32. -/
theorem C1_write_status_idempotent (rw : responseWriter) (c1 c2 : Int) (p : List Byte)
    (f : Header → Header) (hunsent : rw.sentHeader = false)
    (hlo : -2147483648 ≤ c1) (hhi : c1 < 2147483648) :
    sentMessages (rw.WriteHeader c1).stream.trace
        = sentMessages rw.stream.trace
          ++ [(SendSite.metadata, { statusCode := c1, headers := encodeHeaders rw.header })]
      ∧ sentMessages
          (({ rw.WriteHeader c1 with header := f (rw.WriteHeader c1).header } :
            responseWriter).WriteHeader c2).stream.trace
        = sentMessages rw.stream.trace
          ++ [(SendSite.metadata, { statusCode := c1, headers := encodeHeaders rw.header })]
      ∧ sentMessages
          (({ rw.WriteHeader c1 with header := f (rw.WriteHeader c1).header } :
            responseWriter).Write p).2.stream.trace
        = sentMessages rw.stream.trace
          ++ [(SendSite.metadata, { statusCode := c1, headers := encodeHeaders rw.header }),
              (SendSite.body, { bodyData := p })] := by
  have hc := toInt32_of_range c1 hlo hhi
  refine ⟨?_, ?_, ?_⟩
  · cases h : rw.stream.sendErr rw.stream.sends <;>
      simp [responseWriter.WriteHeader, responseWriter.failed, ServerStream.Send, hunsent, h,
        hc, sentMessages_append, sentMessages]
  · cases h : rw.stream.sendErr rw.stream.sends <;>
      simp [responseWriter.WriteHeader, responseWriter.failed, ServerStream.Send, hunsent, h,
        hc, sentMessages_append, sentMessages]
  · cases h : rw.stream.sendErr rw.stream.sends <;>
      cases h2 : rw.stream.sendErr (rw.stream.sends + 1) <;>
      simp [responseWriter.Write, responseWriter.WriteHeader, responseWriter.failed,
        ServerStream.Send, hunsent, h, h2, hc, sentMessages_append, sentMessages]

/-- Witness of C1 at status 404 followed by status 500 and by a three-byte write. -/
theorem C1_write_status_idempotent_witness :
    sentMessages
        (({ sampleWriter.WriteHeader 404 with header := [] } : responseWriter).Write
          [97, 98, 99]).2.stream.trace
      = [(SendSite.metadata,
            { statusCode := 404, headers := [{ header := "X-Test", values := ["1"] }] }),
          (SendSite.body, { bodyData := [97, 98, 99] })] :=
  (C1_write_status_idempotent sampleWriter 404 500 [97, 98, 99] (fun _ => []) rfl
    (by decide) (by decide)).2.2

/-- C7 (counterexample): on an unsent writer whose first send fails and whose
second send succeeds, `Write` invokes the failure callback for the failed
metadata send and still returns `(len(p), nil)`. -/
theorem C7_counterexample :
    failingWriter.stream.sendErr 0 = some (GoError.other "send failed")
      ∧ (failingWriter.Write [97, 98, 99]).1 = (3, none)
      ∧ (failingWriter.Write [97, 98, 99]).2.stream.trace
        = [Event.send SendSite.metadata { statusCode := 200 }, Event.failed,
            Event.send SendSite.body { bodyData := [97, 98, 99] }] := by
  decide

/-- C7 (amended): `Write(p)` returns the outcome of its Body Chunk send, with
`len(p)` on success and 0 on failure, whatever the implicit metadata send did;
the failure callback is invoked once for a failed implicit metadata send and
once for a failed Body Chunk send, hence not at all when every send succeeds. -/
theorem C7_write_failure (rw : responseWriter) (p : List Byte) :
    (rw.Write p).1
        = (if rw.stream.sendErr (if rw.sentHeader then rw.stream.sends
              else rw.stream.sends + 1) = none then p.length else 0,
            rw.stream.sendErr (if rw.sentHeader then rw.stream.sends
              else rw.stream.sends + 1))
      ∧ failedCalls (rw.Write p).2.stream.trace
        = failedCalls rw.stream.trace
          + (if rw.sentHeader = false ∧ rw.stream.sendErr rw.stream.sends ≠ none then 1 else 0)
          + (if rw.stream.sendErr (if rw.sentHeader then rw.stream.sends
              else rw.stream.sends + 1) = none then 0 else 1) := by
  cases hs : rw.sentHeader
  · cases h : rw.stream.sendErr rw.stream.sends <;>
      cases h2 : rw.stream.sendErr (rw.stream.sends + 1) <;>
      simp [responseWriter.Write, responseWriter.WriteHeader, responseWriter.failed,
        ServerStream.Send, hs, h, h2, failedCalls]
  · cases h : rw.stream.sendErr rw.stream.sends <;>
      simp [responseWriter.Write, responseWriter.WriteHeader, responseWriter.failed,
        ServerStream.Send, hs, h, failedCalls]

/-- C5: when the first message arrives and its method, URL and protocol version
are accepted, a handler that performs no operation on the response writer and
no body read makes `receiver.HTTP` return nil after exactly one send, made after
the receive: status 200, no headers, no body data (followed by the failure
callback when that send fails). -/
theorem C5_silent_handler (lib : NetHTTP) (handler : Request → Handler)
    (stream : ServerStream) (msg : HTTPRequest) (rest : List HTTPRequest) (v : Int × Int)
    (hidle : ∀ req, (handler req).idle = true)
    (hrecv : stream.incoming = msg :: rest)
    (hreq : lib.newRequestErr msg.method msg.url = none)
    (hver : lib.parseHTTPVersion msg.proto = some v) :
    (receiver.HTTP lib handler stream).1 = none
      ∧ (receiver.HTTP lib handler stream).2.trace
        = stream.trace
          ++ [Event.recv,
              Event.send SendSite.metadata { statusCode := 200, headers := [], bodyData := [] }]
          ++ (if stream.sendErr stream.sends = none then [] else [Event.failed]) := by
  cases h : stream.sendErr stream.sends <;>
    simp [receiver.HTTP, ServerStream.Recv, hrecv, hreq, hver, ServeHTTP_of_idle _ _ (hidle _),
      responseWriter.WriteHeader, responseWriter.failed, ServerStream.Send, h, toInt32,
      encodeHeaders]

/-- Witness of C5 for a GET request on a stream whose sends succeed. -/
theorem C5_silent_handler_witness :
    (receiver.HTTP sampleLib (fun _ => Handler.close Handler.ret)
        (sampleStream [sampleGet])).1 = none
      ∧ (receiver.HTTP sampleLib (fun _ => Handler.close Handler.ret)
          (sampleStream [sampleGet])).2.trace
        = [Event.recv, Event.send SendSite.metadata { statusCode := 200 }] :=
  C5_silent_handler sampleLib (fun _ => Handler.close Handler.ret) (sampleStream [sampleGet])
    sampleGet [] (1, 1) (fun _ => rfl) rfl rfl rfl

/-- C8 (counterexample): a header map holding both `foo` and `Foo` is decoded to
the single entry `Foo`, so the values of `foo` are lost. -/
theorem C8_counterexample :
    (Header.keys [("foo", ["1"]), ("Foo", ["2"])]).Nodup
      ∧ decodeHeaders (encodeHeaders [("foo", ["1"]), ("Foo", ["2"])]) = [("Foo", ["2"])]
      ∧ Header.lookup (decodeHeaders (encodeHeaders [("foo", ["1"]), ("Foo", ["2"])]))
          (CanonicalHeaderKey "foo") ≠ some ["1"] := by
  decide

/-- C8 (amended): when the names of `H` have pairwise distinct canonical forms,
encoding as the forwarder does and decoding as the receiver does yields the
entries of `H` with canonicalized names: the names are exactly the canonical
names of `H`, none twice, each name carries the value list of its name in `H`, and
the number of entries is unchanged. -/
theorem C8_header_roundtrip (H : Header)
    (hdistinct : ((Header.keys H).map CanonicalHeaderKey).Nodup) :
    decodeHeaders (encodeHeaders H) = H.map (fun kv => (CanonicalHeaderKey kv.1, kv.2))
      ∧ (Header.keys (decodeHeaders (encodeHeaders H))).Nodup
      ∧ Header.keys (decodeHeaders (encodeHeaders H)) = (Header.keys H).map CanonicalHeaderKey
      ∧ (∀ kv ∈ H, Header.lookup (decodeHeaders (encodeHeaders H)) (CanonicalHeaderKey kv.1)
          = some kv.2)
      ∧ (decodeHeaders (encodeHeaders H)).length = H.length := by
  have hD : decodeHeaders (encodeHeaders H)
      = H.map (fun kv => (CanonicalHeaderKey kv.1, kv.2)) := by
    have := mergeHeaders_of_distinct H [] (by simpa [Header.keys] using hdistinct)
    simpa [decodeHeaders] using this
  have hkeys : Header.keys (decodeHeaders (encodeHeaders H))
      = (Header.keys H).map CanonicalHeaderKey := by
    rw [hD]
    simp [Header.keys, Function.comp_def]
  refine ⟨hD, ?_, hkeys, ?_, ?_⟩
  · rw [hkeys]
    exact hdistinct
  · intro kv hkv
    apply Header.lookup_of_mem
    · rw [hkeys]
      exact hdistinct
    · rw [hD]
      exact List.mem_map_of_mem (fun kv => (CanonicalHeaderKey kv.1, kv.2)) hkv
  · rw [hD]
    simp

/-- Witness of C8 for two headers with non-canonical names. -/
theorem C8_header_roundtrip_witness :
    decodeHeaders (encodeHeaders [("x-test", ["1", "2"]), ("accept", ["*/*"])])
      = [("X-Test", ["1", "2"]), ("Accept", ["*/*"])] :=
  (C8_header_roundtrip [("x-test", ["1", "2"]), ("accept", ["*/*"])] (by decide)).1

/-- C4: with `Expect: 100-continue`, every start of the body transmission directly
follows the receipt of a status-100 message, and there is no start at all when
the first receive does not deliver one; with any other Expect header, once the
stream is open and the Request Metadata send succeeded, the body transmission
is started right after that send and before the first receive. -/
theorem C4_body_transmission_start (env : ClientEnv) (w : ResponseRecorder) (req : Request) :
    (Header.Get req.header "Expect" = "100-continue" →
        (∀ pre post,
            (handler.ServeHTTP env w req).trace = pre ++ FEvent.goTransmitBody :: post →
            ∃ pre' m, pre = pre' ++ [FEvent.recv (some m)] ∧ m.statusCode = 100)
          ∧ ((∀ m, env.incoming.head? = some m → m.statusCode ≠ 100) →
              FEvent.goTransmitBody ∉ (handler.ServeHTTP env w req).trace))
      ∧ (Header.Get req.header "Expect" ≠ "100-continue" →
          env.openErr = none → env.sendErr 0 = none →
          ∃ m post,
            (handler.ServeHTTP env w req).trace
              = [FEvent.openStream,
                  FEvent.send
                    { method := req.method, url := req.url, proto := req.proto,
                      remoteAddr := req.remoteAddr, headers := encodeHeaders req.header },
                  FEvent.goTransmitBody, FEvent.recv m] ++ post) := by
  constructor
  · intro hexp
    cases hopen : env.openErr with
    | some e =>
      have htr : (handler.ServeHTTP env w req).trace = [FEvent.openStream] := by
        simp [handler.ServeHTTP, hopen]
      rw [htr]
      refine ⟨?_, fun _ => by simp⟩
      intro pre post h
      rcases pre with _ | ⟨a, pre⟩
      · simp at h
      · simp at h
    | none =>
      cases hsend : env.sendErr 0 with
      | some e =>
        have htr : (handler.ServeHTTP env w req).trace
            = [FEvent.openStream,
                FEvent.send
                  { method := req.method, url := req.url, proto := req.proto,
                    remoteAddr := req.remoteAddr, headers := encodeHeaders req.header }] := by
          simp [handler.ServeHTTP, hopen, hsend]
        rw [htr]
        refine ⟨?_, fun _ => by simp⟩
        intro pre post h
        rcases pre with _ | ⟨a, _ | ⟨b, pre⟩⟩ <;> simp at h
      | none =>
        obtain ⟨ext, hext, _, hguard, hcount⟩ := awaitStatus_trace env env.incoming
          { w := w,
            trace := [FEvent.openStream,
              FEvent.send
                { method := req.method, url := req.url, proto := req.proto,
                  remoteAddr := req.remoteAddr, headers := encodeHeaders req.header }] }
        have htr : (handler.ServeHTTP env w req).trace
            = FEvent.openStream ::
                FEvent.send
                  { method := req.method, url := req.url, proto := req.proto,
                    remoteAddr := req.remoteAddr, headers := encodeHeaders req.header }
                :: ext := by
          simp only [handler.ServeHTTP, hopen, hsend, hexp, ne_eq, not_true_eq_false, if_false]
          rw [hext]
          simp
        rw [htr]
        constructor
        · intro pre post h
          rcases pre with _ | ⟨a, _ | ⟨b, pre⟩⟩
          · simp at h
          · simp at h
          · simp only [List.cons_append, List.cons.injEq] at h
            obtain ⟨pre', m, hpre, hm⟩ := hguard pre post h.2.2
            exact ⟨a :: b :: pre', m, by simp [hpre], hm⟩
        · intro hhead
          have hzero : ext.count FEvent.goTransmitBody = 0 := by
            rw [hcount]
            cases hin : env.incoming with
            | nil => simp
            | cons m rest =>
              have := hhead m (by simp [hin])
              simp [List.takeWhile_cons, this]
          have hnot : FEvent.goTransmitBody ∉ ext := List.count_eq_zero.mp hzero
          simp [hnot]
  · intro hexp hopen hsend
    obtain ⟨ext, hext, ⟨m, t, hhead⟩, _, _⟩ := awaitStatus_trace env env.incoming
      { w := w,
        trace := [FEvent.openStream,
          FEvent.send
            { method := req.method, url := req.url, proto := req.proto,
              remoteAddr := req.remoteAddr, headers := encodeHeaders req.header }]
          ++ [FEvent.goTransmitBody] }
    refine ⟨m, t, ?_⟩
    simp only [handler.ServeHTTP, hopen, hsend, hexp, ne_eq, not_false_eq_true, if_true]
    rw [hext, hhead]
    simp

/-- Witness of C4 for a request without an Expect header answered by status 200. -/
theorem C4_body_transmission_start_witness :
    ∃ m post,
      (handler.ServeHTTP (sampleEnv [{ statusCode := 200 }]) freshRecorder sampleRequest).trace
        = [FEvent.openStream,
            FEvent.send
              { method := sampleRequest.method, url := sampleRequest.url,
                proto := sampleRequest.proto, remoteAddr := sampleRequest.remoteAddr,
                headers := encodeHeaders sampleRequest.header },
            FEvent.goTransmitBody, FEvent.recv m] ++ post :=
  (C4_body_transmission_start (sampleEnv [{ statusCode := 200 }]) freshRecorder
    sampleRequest).2 (by decide) rfl rfl

/-- C6 (counterexample): when the first receive fails, the downstream response
has status 502 and a body, the text of the error message. -/
theorem C6_counterexample :
    (sampleEnv []).openErr = none ∧ (sampleEnv []).sendErr 0 = none
      ∧ (sampleEnv []).incoming = []
      ∧ (handler.ServeHTTP (sampleEnv []) freshRecorder sampleRequest).w.code = some 502
      ∧ (handler.ServeHTTP (sampleEnv []) freshRecorder sampleRequest).w.body
        = [85, 112, 115, 116, 114, 101, 97, 109, 32, 101, 114, 114, 111, 114, 10]
      ∧ (handler.ServeHTTP (sampleEnv []) freshRecorder sampleRequest).w.body ≠ [] := by
  decide

/-- C6 (amended): when the stream opens, the Request Metadata send succeeds and
the first receive fails, a downstream writer to which nothing was written yet
gets status 502 and, as body, the line `Upstream error`. -/
theorem C6_first_receive_fails (env : ClientEnv) (w : ResponseRecorder) (req : Request)
    (hopen : env.openErr = none) (hsend : env.sendErr 0 = none)
    (hrecv : env.incoming = []) (hcode : w.code = none) (hbody : w.body = []) :
    (handler.ServeHTTP env w req).w.code = some 502
      ∧ (handler.ServeHTTP env w req).w.body = stringBytes "Upstream error\n" := by
  simp [handler.ServeHTTP, hopen, hsend, hrecv, ServeHTTP.awaitStatus, httpError,
    ResponseRecorder.Write, ResponseRecorder.WriteHeader, hcode, hbody]

/-- Witness of C6 on a stream that ends before any response message. -/
theorem C6_first_receive_fails_witness :
    (handler.ServeHTTP (sampleEnv []) freshRecorder sampleRequest).w.code = some 502
      ∧ (handler.ServeHTTP (sampleEnv []) freshRecorder sampleRequest).w.body
        = stringBytes "Upstream error\n" :=
  C6_first_receive_fails (sampleEnv []) freshRecorder sampleRequest rfl rfl rfl rfl rfl

/-- C10 (counterexample): a request without an Expect header whose stream delivers
a status-100 message and then status 200 starts the body transmission twice. -/
theorem C10_counterexample :
    (handler.ServeHTTP (sampleEnv [{ statusCode := 100 }, { statusCode := 200 }])
        freshRecorder sampleRequest).trace
        = [FEvent.openStream,
            FEvent.send { method := "POST", url := "/upload", proto := "HTTP/1.1" },
            FEvent.goTransmitBody, FEvent.recv (some { statusCode := 100 }),
            FEvent.goTransmitBody, FEvent.recv (some { statusCode := 200 }),
            FEvent.recv none]
      ∧ ¬ ((handler.ServeHTTP (sampleEnv [{ statusCode := 100 }, { statusCode := 200 }])
          freshRecorder sampleRequest).trace.count FEvent.goTransmitBody ≤ 1) := by
  decide

/-- C10 (amended): once the stream is open and the Request Metadata send
succeeded, the body transmission is started once if the Expect header is not
100-continue, plus once for every status-100 message received before the first
other message or receive error; hence at most once when no status-100 message
leads the responses of a request without `Expect: 100-continue`, or at most one
leads those of a request with it. Without an open stream or a successful
metadata send it is never started. -/
theorem C10_body_transmission_starts (env : ClientEnv) (w : ResponseRecorder)
    (req : Request) :
    (handler.ServeHTTP env w req).trace.count FEvent.goTransmitBody
        = (if env.openErr = none ∧ env.sendErr 0 = none then
            (if Header.Get req.header "Expect" ≠ "100-continue" then 1 else 0)
              + (env.incoming.takeWhile fun m => decide (m.statusCode = 100)).length
          else 0)
      ∧ ((if Header.Get req.header "Expect" ≠ "100-continue" then 1 else 0)
            + (env.incoming.takeWhile fun m => decide (m.statusCode = 100)).length ≤ 1 →
          (handler.ServeHTTP env w req).trace.count FEvent.goTransmitBody ≤ 1) := by
  have hcount : (handler.ServeHTTP env w req).trace.count FEvent.goTransmitBody
      = (if env.openErr = none ∧ env.sendErr 0 = none then
          (if Header.Get req.header "Expect" ≠ "100-continue" then 1 else 0)
            + (env.incoming.takeWhile fun m => decide (m.statusCode = 100)).length
        else 0) := by
    cases hopen : env.openErr with
    | some e => simp [handler.ServeHTTP, hopen]
    | none =>
      cases hsend : env.sendErr 0 with
      | some e => simp [handler.ServeHTTP, hopen, hsend]
      | none =>
        by_cases hexp : Header.Get req.header "Expect" = "100-continue"
        · obtain ⟨ext, hext, _, _, hcount⟩ := awaitStatus_trace env env.incoming
            { w := w,
              trace := [FEvent.openStream,
                FEvent.send
                  { method := req.method, url := req.url, proto := req.proto,
                    remoteAddr := req.remoteAddr, headers := encodeHeaders req.header }] }
          simp only [handler.ServeHTTP, hopen, hsend, hexp, ne_eq, not_true_eq_false, if_false,
            and_self, if_true]
          rw [hext]
          simp [List.count_cons, hcount]
        · obtain ⟨ext, hext, _, _, hcount⟩ := awaitStatus_trace env env.incoming
            { w := w,
              trace := [FEvent.openStream,
                FEvent.send
                  { method := req.method, url := req.url, proto := req.proto,
                    remoteAddr := req.remoteAddr, headers := encodeHeaders req.header }]
                ++ [FEvent.goTransmitBody] }
          simp only [handler.ServeHTTP, hopen, hsend, hexp, ne_eq, not_false_eq_true, if_true,
            and_self]
          rw [hext]
          simp [List.count_cons, hcount]
          omega
  refine ⟨hcount, fun hle => ?_⟩
  rw [hcount]
  split
  · exact hle
  · omega

/-- Witness of C10 for a request with `Expect: 100-continue` answered by one
status-100 message and then status 200. -/
theorem C10_body_transmission_starts_witness :
    (handler.ServeHTTP (sampleEnv [{ statusCode := 100 }, { statusCode := 200 }])
        freshRecorder sampleExpectRequest).trace.count FEvent.goTransmitBody ≤ 1 :=
  (C10_body_transmission_starts (sampleEnv [{ statusCode := 100 }, { statusCode := 200 }])
    freshRecorder sampleExpectRequest).2 (by decide)

/-- C3: the first `Read` of a fresh, unclosed body reader with `expectContinue` set,
while no response status was sent, first hands one message with status 100 to
the stream and only then receives (a failed send prevents the receive); when
the send succeeds and a message arrives, the `Read` serves its payload and keeps
the rest buffered; and no `Read` after it, whatever operations come between,
sends any message. -/
theorem C3_expect_continue_first_read (s : Session) (n : Nat)
    (hexp : s.br.expectContinue = true) (hbuf : s.br.buf = []) (herr : s.br.err = none)
    (hunsent : s.rw.sentHeader = false) :
    (bodyReader.Read s n).2.rw.stream.trace
        = s.rw.stream.trace
          ++ Event.send SendSite.expectContinue { statusCode := 100 }
            :: (if s.rw.stream.sendErr s.rw.stream.sends = none then
                  Event.recv ::
                    (if s.rw.stream.incoming = [] ∧ s.rw.stream.recvFinal ≠ GoError.EOF
                      then [Event.failed] else [])
                else [Event.failed])
      ∧ (∀ msg rest, s.rw.stream.sendErr s.rw.stream.sends = none →
          s.rw.stream.incoming = msg :: rest →
          (bodyReader.Read s n).1 = (msg.bodyData.take n, none)
            ∧ (bodyReader.Read s n).2.br.buf = msg.bodyData.drop n
            ∧ (bodyReader.Read s n).2.rw.stream.incoming = rest)
      ∧ (∀ (ops : List Op) (n' : Nat),
          sentMessages
              (bodyReader.Read ((bodyReader.Read s n).2.run ops) n').2.rw.stream.trace
            = sentMessages ((bodyReader.Read s n).2.run ops).rw.stream.trace) := by
  refine ⟨?_, ?_, ?_⟩
  · unfold bodyReader.Read
    cases hsd : s.rw.stream.sendErr s.rw.stream.sends <;>
      cases hin : s.rw.stream.incoming <;>
      simp_all [ServerStream.Send, ServerStream.Recv, responseWriter.failed]
    split <;> simp_all
  · intro msg rest hsd hin
    unfold bodyReader.Read
    simp_all [ServerStream.Send, ServerStream.Recv, responseWriter.failed]
  · intro ops n'
    have h1 := Read_expectContinue s n (Or.inr ⟨hbuf, herr⟩)
    have h2 := run_expectContinue ops _ h1
    rcases Read_sent ((bodyReader.Read s n).2.run ops) n' with h | ⟨_, hx, _⟩
    · exact h
    · rw [h2] at hx
      cases hx

/-- Witness of C3 on a fresh session whose peer delivers the chunk `abc`. -/
theorem C3_expect_continue_first_read_witness :
    (bodyReader.Read sampleSession 2).2.rw.stream.trace
        = [Event.send SendSite.expectContinue { statusCode := 100 }, Event.recv]
      ∧ (bodyReader.Read sampleSession 2).1 = ([97, 98], none)
      ∧ (bodyReader.Read sampleSession 2).2.br.buf = [99] :=
  ⟨(C3_expect_continue_first_read sampleSession 2 rfl rfl rfl rfl).1,
    ((C3_expect_continue_first_read sampleSession 2 rfl rfl rfl rfl).2.1
      { bodyData := [97, 98, 99] } [] rfl rfl).1,
    ((C3_expect_continue_first_read sampleSession 2 rfl rfl rfl rfl).2.1
      { bodyData := [97, 98, 99] } [] rfl rfl).2.1⟩

/-- C9: in every sequential run started on an unsent session whose stream carries
no metadata message yet, the messages sent split into a first part without
Response Metadata and a second part without status-100 messages of the body
reader, so each such status-100 message precedes the Response Metadata. In the
state reached, a `Read` sends nothing once the sent flag is set and never
changes the flag; and when the run held no `WriteHeader` or `Write`, whatever its
reads sent, the next `WriteHeader(c)` sends the Response Metadata with status `c`
and the next `Write` sends it with status 200. -/
theorem C9_continue_precedes_metadata (s : Session) (ops : List Op) (n : Nat) (c : Int)
    (p : List Byte) (hunsent : s.rw.sentHeader = false)
    (hnone : ∀ x ∈ sentMessages s.rw.stream.trace, x.1 ≠ SendSite.metadata)
    (hlo : -2147483648 ≤ c) (hhi : c < 2147483648) :
    (∃ a b, sentMessages (s.run ops).rw.stream.trace = a ++ b
        ∧ (∀ x ∈ a, x.1 ≠ SendSite.metadata) ∧ (∀ x ∈ b, x.1 ≠ SendSite.expectContinue))
      ∧ ((s.run ops).rw.sentHeader = true →
          sentMessages (bodyReader.Read (s.run ops) n).2.rw.stream.trace
            = sentMessages (s.run ops).rw.stream.trace)
      ∧ (bodyReader.Read (s.run ops) n).2.rw.sentHeader = (s.run ops).rw.sentHeader
      ∧ ((∀ op ∈ ops, op.writesStatus = false) →
          sentMessages ((s.run ops).rw.WriteHeader c).stream.trace
              = sentMessages (s.run ops).rw.stream.trace
                ++ [(SendSite.metadata,
                    { statusCode := c, headers := encodeHeaders (s.run ops).rw.header })]
            ∧ sentMessages ((s.run ops).rw.Write p).2.stream.trace
              = sentMessages (s.run ops).rw.stream.trace
                ++ [(SendSite.metadata,
                      { statusCode := 200, headers := encodeHeaders (s.run ops).rw.header }),
                    (SendSite.body, { bodyData := p })]) := by
  refine ⟨?_, ?_, Read_sentHeader _ n, ?_⟩
  · exact run_sent_ordered ops s (sentMessages s.rw.stream.trace) [] (by simp) hnone
      (by simp) (fun _ => rfl)
  · intro hsent
    rcases Read_sent (s.run ops) n with h | ⟨hun, _, _⟩
    · exact h
    · rw [hsent] at hun
      cases hun
  · intro hq
    have hflag : (s.run ops).rw.sentHeader = false := by
      rw [run_sentHeader_of_quiet ops s hq]
      exact hunsent
    constructor
    · rw [WriteHeader_sent, toInt32_of_range c hlo hhi]
      simp [hflag]
    · rw [Write_sent]
      simp [hflag]

/-- Witness of C9: a read that sends status 100, then `WriteHeader(204)`. -/
theorem C9_continue_precedes_metadata_witness :
    sentMessages ((sampleSession.run [Op.read 2]).rw.WriteHeader 204).stream.trace
      = sentMessages (sampleSession.run [Op.read 2]).rw.stream.trace
        ++ [(SendSite.metadata,
            { statusCode := 204,
              headers := encodeHeaders (sampleSession.run [Op.read 2]).rw.header })] :=
  ((C9_continue_precedes_metadata sampleSession [Op.read 2] 1 204 [] rfl (by decide)
    (by decide) (by decide)).2.2.2 (by decide)).1

/-- C2: when the body source delivers `B` in reads of at most 4096 bytes ending
with end of input, and all sends, the `CloseSend` and the receives succeed, then
`transmitBody` sends its Body Chunk messages and closes the send side, and on a
fresh body reader fed those messages, `Read` calls with any destination sizes of
at least one byte reach end of data and return bytes that concatenate to `B`. -/
theorem C2_body_roundtrip (env : ClientEnv) (k : Nat) (body : Body) (B : List Byte)
    (sizes : Nat → Nat) (s : Session)
    (hsend : ∀ j, env.sendErr j = none) (hclose : env.closeErr = none)
    (hwf : ∀ r ∈ body, r.data.length ≤ 4096) (hB : Body.content body = some B)
    (hsizes : ∀ i, 1 ≤ sizes i)
    (hbuf : s.br.buf = []) (herr : s.br.err = none)
    (hssend : ∀ j, s.rw.stream.sendErr j = none)
    (hin : s.rw.stream.incoming = transmitted (transmitBody env k body))
    (hfinal : s.rw.stream.recvFinal = GoError.EOF) :
    transmitBody env k body
        = (transmitted (transmitBody env k body)).map TEvent.send ++ [TEvent.closeSend]
      ∧ ∃ N, ∀ fuel, N ≤ fuel → readToEnd sizes fuel 0 s = some (B, GoError.EOF) := by
  obtain ⟨msgs, hmsgs, hcat⟩ := transmitBody_of_ok env hsend hclose body k B hwf hB
  have htr : transmitted (transmitBody env k body) = msgs := by
    rw [hmsgs]
    exact transmitted_map_send msgs _ rfl
  refine ⟨by rw [htr, hmsgs], readsLeft s + 1, fun fuel hfuel => ?_⟩
  rw [readToEnd_drains sizes hsizes fuel 0 s (by omega) herr hssend hfinal, hbuf, hin, htr, hcat]
  rfl

/-- Witness of C2: the body `abc`, delivered in two reads, read back one byte at a time. -/
theorem C2_body_roundtrip_witness :
    ∃ N, ∀ fuel, N ≤ fuel →
      readToEnd (fun _ => 1) fuel 0 sampleUpload = some ([97, 98, 99], GoError.EOF) :=
  (C2_body_roundtrip (sampleEnv []) 1 sampleBody [97, 98, 99] (fun _ => 1) sampleUpload
    (fun _ => rfl) rfl (by decide) rfl (fun _ => Nat.le_refl 1) rfl rfl (fun _ => rfl)
    rfl rfl).2

end HttpOverGrpc
